import Mathlib

/-!
Verification of the content-velocity service: a shallow embedding of the
temporal bucketing utility (`src/services/velocityAnalyzer.ts`), the resilient
fetch client (`src/services/anchorBrowser.ts` and its revision in
`src/unnamed/part_002`), and the in-memory job store with its orchestrator
(`src/services/jobQueue.ts`, found in `src/unnamed/part_003`, and `processJob`
in `src/index.ts`), together with theorems settling the specification claims.
-/

namespace ContentVelocity

/-! ### Dates

JavaScript `Date` values are modelled as a calendar day number paired with a
millisecond offset into that day.  `d.setDate(d.getDate() - n)` subtracts `n`
calendar days keeping the time of day; `d.setHours(0,0,0,0)` zeroes the time of
day; `Date` comparison compares the underlying millisecond timestamps, here
`day * 86400000 + tod`.  (Daylight-saving shifts are outside the model: every
day has the canonical 86400000 ms.) -/

def msPerDay : Int := 86400000

structure JDate where
  day : Int
  tod : Int
deriving DecidableEq, Repr

def JDate.toMs (d : JDate) : Int := d.day * msPerDay + d.tod

/-- Model of `d.setDate(d.getDate() - n)` on a copy: same time of day, `n` days earlier. -/
def JDate.subDays (d : JDate) (n : Int) : JDate := ⟨d.day - n, d.tod⟩

/-- Model of `d.setHours(0, 0, 0, 0)`: normalize to start of day. -/
def JDate.startOfDay (d : JDate) : JDate := ⟨d.day, 0⟩

/-! ### Blog posts and velocity metrics (`velocityAnalyzer.ts`) -/

structure BlogPost where
  title : String
  publishDate : String
deriving DecidableEq, Repr

structure VelocityMetrics where
  blogTitle : Option String
  last30DaysCount : Nat
  previous30DaysCount : Nat
  velocityStatus : String
  percentageChange : Rat
  last14DaysCount : Nat
  previous14DaysCount : Nat
  velocityStatus14Days : String
  percentageChange14Days : Rat
deriving DecidableEq, Repr

/-- Rounding `Math.round(x * 100) / 100`: round to 2 decimal places, halves toward
positive infinity (JavaScript `Math.round` is `⌊x + 1/2⌋`). -/
def round2 (q : Rat) : Rat := ((⌊q * 100 + 1 / 2⌋ : Int) : Rat) / 100

/-- The four counters accumulated by the post loop of `analyzeContentVelocity`. -/
structure Counts where
  last30 : Nat
  prev30 : Nat
  last14 : Nat
  prev14 : Nat
deriving DecidableEq, Repr

def Counts.add (a b : Counts) : Counts :=
  ⟨a.last30 + b.last30, a.prev30 + b.prev30, a.last14 + b.last14, a.prev14 + b.prev14⟩

/-- One iteration of the post loop in `analyzeContentVelocity`.  The host
date parser (`new Date(string)` followed by the strict `YYYY-MM-DD`
decomposition fallback) is an external runtime facility, passed in as
`dateParse`; `none` means both parses failed, and the post is skipped, as is a
post whose `publishDate` is the empty string (`if (!post.publishDate) continue`).
A parsed date is normalized to start of day, then classified by the two
independent `if/else if` chains: current window when
`start <= date <= now`, previous window when `prevStart <= date < start`. -/
def Counts.ofPairs (c30 c14 : Nat × Nat) : Counts := ⟨c30.1, c30.2, c14.1, c14.2⟩

def postContrib (dateParse : String → Option JDate)
    (now last30Start prev30Start last14Start prev14Start : JDate)
    (post : BlogPost) : Counts :=
  if post.publishDate = "" then ⟨0, 0, 0, 0⟩
  else
    match dateParse post.publishDate with
    | none => ⟨0, 0, 0, 0⟩
    | some d0 =>
      Counts.ofPairs
        (if last30Start.toMs ≤ d0.startOfDay.toMs ∧ d0.startOfDay.toMs ≤ now.toMs then (1, 0)
         else if prev30Start.toMs ≤ d0.startOfDay.toMs ∧ d0.startOfDay.toMs < last30Start.toMs then
           (0, 1)
         else (0, 0))
        (if last14Start.toMs ≤ d0.startOfDay.toMs ∧ d0.startOfDay.toMs ≤ now.toMs then (1, 0)
         else if prev14Start.toMs ≤ d0.startOfDay.toMs ∧ d0.startOfDay.toMs < last14Start.toMs then
           (0, 1)
         else (0, 0))

/-- The post loop of `analyzeContentVelocity`: accumulate the four counters
over the post list. -/
def tallyPosts (dateParse : String → Option JDate)
    (now last30Start prev30Start last14Start prev14Start : JDate)
    (posts : List BlogPost) : Counts :=
  posts.foldl
    (fun acc p =>
      acc.add (postContrib dateParse now last30Start prev30Start last14Start prev14Start p))
    ⟨0, 0, 0, 0⟩

/-- The percentage-change / velocity-status block of `analyzeContentVelocity`,
written once in the source for the 30-day pair and repeated verbatim for the
14-day pair.  Returns the raw (unrounded) percentage and the status string. -/
def velocityLabelPct (current previous : Nat) : Rat × String :=
  if 0 < previous then
    ((((current : Rat) - (previous : Rat)) / (previous : Rat)) * 100,
      if 0 < (((current : Rat) - (previous : Rat)) / (previous : Rat)) * 100 then "Velocity up"
      else if (((current : Rat) - (previous : Rat)) / (previous : Rat)) * 100 < 0 then
        "Velocity down"
      else "No change")
  else if 0 < current ∧ previous = 0 then (100, "Velocity up")
  else if current = 0 ∧ 0 < previous then (-100, "Velocity down")
  else (0, "No change")

/-- The function `analyzeContentVelocity` from `src/services/velocityAnalyzer.ts`.  The
wall-clock instant `now` is injected; the window starts are computed exactly as
in the source: `last30DaysStart = now - 30 days` and
`last14DaysStart = now - 14 days` are NOT normalized, while
`previous30DaysStart = now - 60 days` and `previous14DaysStart = now - 28 days`
get `setHours(0,0,0,0)`. -/
def analyzeContentVelocity (dateParse : String → Option JDate) (now : JDate)
    (posts : List BlogPost) (blogTitle : Option String) : VelocityMetrics :=
  let last30DaysStart := now.subDays 30
  let previous30DaysStart := (now.subDays 60).startOfDay
  let last14DaysStart := now.subDays 14
  let previous14DaysStart := (now.subDays 28).startOfDay
  let c := tallyPosts dateParse now last30DaysStart previous30DaysStart
    last14DaysStart previous14DaysStart posts
  let p30 := velocityLabelPct c.last30 c.prev30
  let p14 := velocityLabelPct c.last14 c.prev14
  { blogTitle := blogTitle
    last30DaysCount := c.last30
    previous30DaysCount := c.prev30
    velocityStatus := p30.2
    percentageChange := round2 p30.1
    last14DaysCount := c.last14
    previous14DaysCount := c.prev14
    velocityStatus14Days := p14.2
    percentageChange14Days := round2 p14.1 }

/-! ### Spec-side definitions for the trend policy (claim C3)

These two definitions transcribe the specification's percentage/trend rules
(spec §4.1 step 6) rather than the source; the claim is settled by comparing
`analyzeContentVelocity` against them. -/

/-- Percentage change as the spec words it: with a nonzero previous count,
`round2((current - previous) / previous * 100)`; from zero to something, `100`;
from zero to zero, `0` (the spec's `previous > 0, current = 0 → -100` case is
the formula's value there). -/
def specPercentageChange (current previous : Nat) : Rat :=
  if 0 < previous then round2 ((((current : Rat) - (previous : Rat)) / (previous : Rat)) * 100)
  else if 0 < current then 100
  else 0

/-- Trend as the spec words it: with a nonzero previous count, the sign of the
percentage change (equivalently of `current - previous`); `up` from zero to
something; `no-change` when both are zero. -/
def specTrendLabel (current previous : Nat) : String :=
  if 0 < previous then
    if previous < current then "Velocity up"
    else if current < previous then "Velocity down"
    else "No change"
  else if 0 < current then "Velocity up"
  else "No change"

/-! ### The resilient fetch client (`anchorBrowser.ts`)

Upstream payloads are JavaScript values; the fragment the normalization
pipeline inspects is modelled by `JVal`.  `JSON.parse` is a host-runtime
facility and is passed in as a `parse` oracle (`none` = the parse throws).
Strings never contain brace characters in this development, so the regex
`\x7b[\s\S]*\x7d` (first `\x7b` to last `\x7d`) is implemented directly as
`extractBraces`. -/

inductive JVal where
  | jstr (s : String)
  | jnum (n : Int)
  | jbool (b : Bool)
  | jnull
  | jundef
  | jarr (elems : List JVal)
  | jobj (fields : List (String × JVal))

/-- JavaScript truthiness for the values `JVal` models. -/
def JVal.truthy : JVal → Bool
  | .jstr s => s != ""
  | .jnum n => n != 0
  | .jbool b => b
  | .jnull => false
  | .jundef => false
  | .jarr _ => true
  | .jobj _ => true

/-- Test `typeof v === 'object'` (true for objects, arrays and `null`). -/
def JVal.isObjectType : JVal → Bool
  | .jobj _ => true
  | .jarr _ => true
  | .jnull => true
  | _ => false

/-- Property access `v[k]`; `none` plays the role of `undefined`.  Property
access on `null`/`undefined` throws in JavaScript and is guarded separately at
the call sites that can receive them. -/
def JVal.getField : JVal → String → Option JVal
  | .jobj fields, k => (fields.find? (fun kv => kv.1 == k)).map (fun kv => kv.2)
  | _, _ => none

/-- Test `'k' in v`. -/
def JVal.hasField (v : JVal) (k : String) : Bool := (v.getField k).isSome

/-- String content of a `JVal`; the schema makes `title`/`publishDate`/
`blogTitle` strings, non-string values are outside the model and collapse
to `""`. -/
def JVal.asString : JVal → String
  | .jstr s => s
  | _ => ""

/-- Extraction `post.title || ''`. -/
def postTitleOf (e : JVal) : String :=
  match e.getField "title" with
  | some v => if v.truthy then v.asString else ""
  | none => ""

/-- Extraction `post.publishDate || post.publish_date || ''`. -/
def postDateOf (e : JVal) : String :=
  match e.getField "publishDate" with
  | some v =>
    if v.truthy then v.asString
    else
      match e.getField "publish_date" with
      | some w => if w.truthy then w.asString else ""
      | none => ""
  | none =>
    match e.getField "publish_date" with
    | some w => if w.truthy then w.asString else ""
    | none => ""

/-- One element of the posts array mapped to a `BlogPost`; a `null` or
`undefined` element would make the property access throw (`none`). -/
def postOfJVal (e : JVal) : Option BlogPost :=
  match e with
  | .jnull => none
  | .jundef => none
  | _ => some ⟨postTitleOf e, postDateOf e⟩

structure ScrapeResult where
  blogTitle : Option String
  posts : List BlogPost
deriving DecidableEq, Repr

/-- Field extraction from a parsed result (`parsedResult.blogTitle` truthiness
check, then the posts array either as the `posts` field or, as a fallback, the
parsed result itself); `none` models the `TypeError` thrown when
`parsedResult` is `null`. -/
def extractResult (pr : JVal) : Option ScrapeResult :=
  match pr with
  | .jnull => none
  | .jundef => none
  | _ =>
    let blogTitle : Option String :=
      match pr.getField "blogTitle" with
      | some v => if v.truthy then some v.asString else none
      | none => none
    let postsOpt : Option (List BlogPost) :=
      match pr.getField "posts" with
      | some (.jarr es) => es.mapM postOfJVal
      | _ =>
        match pr with
        | .jarr es => es.mapM postOfJVal
        | _ => some []
    match postsOpt with
    | some ps => some ⟨blogTitle, ps⟩
    | none => none

/-- The regex match `result.match(/\x7b[\s\S]*\x7d/)`: from the first opening
brace to the last closing brace, provided the latter comes after the former. -/
def extractBraces (s : String) : Option String :=
  let cs := s.data
  match cs.findIdx? (fun ch => ch == '{'), cs.reverse.findIdx? (fun ch => ch == '}') with
  | some i, some k =>
    let j := cs.length - 1 - k
    if i < j then some (String.mk ((cs.drop i).take (j - i + 1))) else none
  | _, _ => none

/-- Unwrapping step `if (result && typeof result === 'object' && 'result' in result)
result = result.result`: unwrap a double-wrapped payload one level. -/
def unwrapResult (r : JVal) : JVal :=
  if r.truthy && r.isObjectType && r.hasField "result" then
    (r.getField "result").getD .jundef
  else r

/-- The layered response-normalization pipeline of `scrapeBlogPosts`: unwrap,
then type dispatch — a string is `JSON.parse`d, falling back to embedded-JSON
extraction, with the empty result as terminal fallback; an object is used
directly; anything else degrades to the empty result.  `none` models the one
uncaught path: `parsedResult` being `null`, whose field access throws. -/
def normalizeResult (parse : String → Option JVal) (result0 : JVal) : Option ScrapeResult :=
  match unwrapResult result0 with
  | .jstr s =>
    match parse s with
    | some pr => extractResult pr
    | none =>
      match extractBraces s with
      | some sub =>
        match parse sub with
        | some pr => extractResult pr
        | none => some ⟨none, []⟩
      | none => some ⟨none, []⟩
  | .jobj fs => extractResult (.jobj fs)
  | .jarr es => extractResult (.jarr es)
  | .jnull => none
  | _ => some ⟨none, []⟩

/-! ### Retry loop of `scrapeBlogPosts` -/

/-- Outcome of one outbound attempt.  `validateStatus: () => true` makes every
received HTTP response surface via `response.status`; a network-level failure
with no response received surfaces as an error with `error.request` set. -/
inductive AttemptOutcome where
  | response (status : Nat) (payload : JVal)
  | networkError (msg : String)

def MAX_RETRIES : Nat := 3
def BASE_DELAY : Nat := 5000

/-- Backoff applied at the top of attempt `attempt` (0-based):
`BASE_DELAY * 2^(attempt-1)` for retries, nothing before the first attempt. -/
def backoffDelay (attempt : Nat) : Nat :=
  if 0 < attempt then BASE_DELAY * 2 ^ (attempt - 1) else 0

instance {ε α : Type} [DecidableEq ε] [DecidableEq α] : DecidableEq (Except ε α) :=
  fun a b =>
    match a, b with
    | .error x, .error y =>
      if h : x = y then .isTrue (by rw [h]) else .isFalse (by simp [h])
    | .ok x, .ok y =>
      if h : x = y then .isTrue (by rw [h]) else .isFalse (by simp [h])
    | .error _, .ok _ => .isFalse (by simp)
    | .ok _, .error _ => .isFalse (by simp)

structure LoopTrace where
  attemptsIssued : Nat
  delays : List Nat
  outcome : Except String ScrapeResult
deriving DecidableEq, Repr

/-- The body of the retry `for` loop: statuses `>= 500` record the error and
continue; statuses `>= 400` abort immediately; network errors record the error
and continue; otherwise the payload is normalized and returned.  `delays`
accumulates (reversed) the backoff waited before each issued attempt. -/
def scrapeLoop (parse : String → Option JVal) (outcomes : Nat → AttemptOutcome)
    (domain : String) :
    Nat → Nat → Nat → Option String → List Nat → LoopTrace
  | 0, _, issued, lastError, delays =>
    ⟨issued, delays.reverse,
      .error (lastError.getD
        ("Failed to scrape " ++ domain ++ " after 3 attempts. " ++
          "Anchor Browser service may be experiencing issues."))⟩
  | fuel + 1, attempt, issued, _, delays =>
    let d := backoffDelay attempt
    match outcomes attempt with
    | .networkError m =>
      scrapeLoop parse outcomes domain fuel (attempt + 1) (issued + 1)
        (some ("Failed to connect to Anchor Browser API: " ++ m)) (d :: delays)
    | .response status payload =>
      if 500 ≤ status then
        scrapeLoop parse outcomes domain fuel (attempt + 1) (issued + 1)
          (some ("Anchor Browser server error (" ++ toString status ++ ")")) (d :: delays)
      else if 400 ≤ status then
        ⟨issued + 1, (d :: delays).reverse,
          .error ("Anchor Browser API client error: " ++ toString status ++
            ". Please check your request parameters.")⟩
      else
        match normalizeResult parse payload with
        | some r => ⟨issued + 1, (d :: delays).reverse, .ok r⟩
        | none =>
          ⟨issued + 1, (d :: delays).reverse,
            .error "TypeError: cannot read properties of null"⟩

/-- The function `scrapeBlogPosts` from `src/services/anchorBrowser.ts`: up to `MAX_RETRIES`
attempts, with outcomes of the outbound calls and the host JSON parser passed
in as oracles. -/
def scrapeBlogPosts (domain : String) (parse : String → Option JVal)
    (outcomes : Nat → AttemptOutcome) : LoopTrace :=
  scrapeLoop parse outcomes domain MAX_RETRIES 0 0 none []

/-- A server-side failure: HTTP 500-599, or a network failure with no
response. -/
def isServerFailure : AttemptOutcome → Bool
  | .networkError _ => true
  | .response s _ => decide (500 ≤ s ∧ s ≤ 599)

/-- Failure of every normalization stage, as the claim words it: the unwrapped
result is not an object (nor `null`), and if it is a string then neither it nor
its embedded brace-delimited substring parses as JSON. -/
def normalizationFails (parse : String → Option JVal) : JVal → Prop
  | .jstr s => parse s = none ∧ ∀ sub, extractBraces s = some sub → parse sub = none
  | .jobj _ => False
  | .jarr _ => False
  | .jnull => False
  | _ => True

/-! ### Deduplication (present only in the `src/unnamed/part_002` revision of
`scrapeBlogPosts`) -/

/-- The key comparison of the dedup filter in `part_002`:
`p.title === post.title && p.publishDate === post.publishDate`. -/
def keyMatches (q p : BlogPost) : Bool :=
  q.title == p.title && q.publishDate == p.publishDate

/-- Deduplication `posts.filter((post, index, self) => index === self.findIndex(p =>
p.title === post.title && p.publishDate === post.publishDate))` from
`src/unnamed/part_002`: keep a post exactly when its index is the first index
carrying its `(title, publishDate)` key. -/
def dedupPosts (posts : List BlogPost) : List BlogPost :=
  (posts.enum.filter
    (fun ip => posts.findIdx? (fun q => keyMatches q ip.2) == some ip.1)).map Prod.snd

/-! ### Job store (`src/services/jobQueue.ts`, found in `src/unnamed/part_003`)

The in-memory `Map<string, Job>` is modelled by its lookup function.  Job ids
are generated from wall-clock time and randomness (the `job_` prefix followed
by `Date.now()` and a random suffix); the id is passed in as a parameter
(the entropy source is external), and the no-collision assumption appears as a
freshness hypothesis where it matters. -/

inductive JobStatus where
  | pending
  | processing
  | completed
  | failed
deriving DecidableEq, Repr

/-- Classification aggregate as consumed by the orchestrator (the shape of the
fallback object built in `processJob` when classification fails). -/
structure AEOResult where
  total_titles : Nat
  aeo_optimized_count : Nat
  non_aeo_count : Nat
  aeo_percentage : Rat
  non_aeo_percentage : Rat
  aeo_optimized_titles : List String
  non_aeo_titles : List String
deriving DecidableEq, Repr

/-- The merged result `processJob` passes to `completeJob` on the main path.
The percent-suffixed string interpolation around the percentage
fields is presentation and is dropped; the numeric value is kept. -/
structure MergedResult where
  domain : String
  blog_found : Bool
  blog_title : Option String
  total_posts_analyzed : Nat
  posts_last_30_days : Nat
  posts_previous_30_days : Nat
  velocity_trend_30_days : String
  percentage_change_30_days : Rat
  posts_last_14_days : Nat
  posts_previous_14_days : Nat
  velocity_trend_14_days : String
  percentage_change_14_days : Rat
  aeo_optimized_count : Nat
  aeo_optimized_percentage : Rat
  non_aeo_count : Nat
  non_aeo_percentage : Rat
  aeo_optimized_titles : List String
  non_aeo_titles : List String
deriving DecidableEq, Repr

/-- A completed job's `result` payload: either the zero-metrics "no posts"
result or the merged velocity-plus-classification result. -/
inductive JobResult where
  | noPosts (domain : String) (blog_found : Bool) (blog_title : Option String)
      (last_30_days_count previous_30_days_count : Nat)
      (velocity_status : String) (percentage_change : Rat)
  | merged (m : MergedResult)
deriving DecidableEq, Repr

structure Job where
  id : String
  domain : String
  status : JobStatus
  result : Option JobResult
  error : Option String
  createdAt : Int
  completedAt : Option Int
deriving DecidableEq, Repr

def JobStore : Type := String → Option Job

def getJob (store : JobStore) (jobId : String) : Option Job := store jobId

/-- Operation `createJob`: insert a fresh `pending` job with `createdAt = now`. -/
def createJob (store : JobStore) (jobId domain : String) (now : Int) : JobStore :=
  fun k =>
    if k = jobId then
      some ⟨jobId, domain, .pending, none, none, now, none⟩
    else store k

/-- The partial-fields object passed to `updateJob`; absent fields (`none`)
are left untouched by `Object.assign`. -/
structure JobUpdate where
  status : Option JobStatus := none
  result : Option JobResult := none
  error : Option String := none
  completedAt : Option Int := none

def overrideWith {α : Type} (new old : Option α) : Option α :=
  match new with
  | some v => some v
  | none => old

def applyUpdate (j : Job) (u : JobUpdate) : Job :=
  { j with
    status := u.status.getD j.status
    result := overrideWith u.result j.result
    error := overrideWith u.error j.error
    completedAt := overrideWith u.completedAt j.completedAt }

/-- Operation `updateJob`: merge fields into the record if present, no-op if absent. -/
def updateJob (store : JobStore) (jobId : String) (u : JobUpdate) : JobStore :=
  match store jobId with
  | none => store
  | some j => fun k => if k = jobId then some (applyUpdate j u) else store k

def completeJob (store : JobStore) (jobId : String) (result : JobResult)
    (now : Int) : JobStore :=
  updateJob store jobId
    { status := some JobStatus.completed
      result := some result
      completedAt := some now }

def failJob (store : JobStore) (jobId : String) (error : String) (now : Int) : JobStore :=
  updateJob store jobId
    { status := some JobStatus.failed
      error := some error
      completedAt := some now }

/-- Retention window of the reaper: 1 hour in milliseconds. -/
def RETENTION_MS : Int := 3600000

/-- Interval of the reaper sweep: the `setInterval` period, 10 minutes in
milliseconds. -/
def REAPER_INTERVAL_MS : Nat := 600000

/-- One reaper sweep: delete every job with `createdAt < Date.now() - 3600000`,
regardless of status. -/
def reapJobs (store : JobStore) (now : Int) : JobStore :=
  fun k =>
    match store k with
    | some j => if j.createdAt < now - RETENTION_MS then none else some j
    | none => none

/-! ### Orchestrator (`processJob` in `src/index.ts`)

The two collaborator calls (`scrapeBlogPosts`, `classifyBlogTitles`) are
awaited promises whose outcomes are passed in as `Except` values. -/

/-- The result shape returned by the fetch client, as `processJob` consumes
it. -/
structure FetchedResult where
  blogTitle : Option String
  posts : List BlogPost
deriving DecidableEq, Repr

/-- The function `processJob(jobId, domain)` from `src/index.ts`: mark the job
`processing`; on scrape failure, fail the job; on an empty post list, complete
with the zero-metrics result; otherwise analyze velocity, classify (with the
zero-valued fallback `{total_titles: posts.length, counts 0, percentages 0,
empty title lists}` if classification fails), and complete with the merged
result. -/
def processJob (dateParse : String → Option JDate) (now : JDate) (tnow : Int)
    (jobId domain : String)
    (scrape : Except String FetchedResult)
    (classify : Except String AEOResult)
    (store : JobStore) : JobStore :=
  let store1 := updateJob store jobId { status := some .processing }
  match scrape with
  | .error msg => failJob store1 jobId msg tnow
  | .ok sr =>
    let blogFound := !sr.posts.isEmpty || sr.blogTitle.isSome
    if sr.posts.isEmpty then
      completeJob store1 jobId
        (.noPosts domain blogFound sr.blogTitle 0 0 "No posts found" 0) tnow
    else
      let vm := analyzeContentVelocity dateParse now sr.posts sr.blogTitle
      let aeo : AEOResult :=
        match classify with
        | .ok r => r
        | .error _ => ⟨sr.posts.length, 0, 0, 0, 0, [], []⟩
      completeJob store1 jobId (.merged
        { domain := domain
          blog_found := true
          blog_title := vm.blogTitle
          total_posts_analyzed := aeo.total_titles
          posts_last_30_days := vm.last30DaysCount
          posts_previous_30_days := vm.previous30DaysCount
          velocity_trend_30_days := vm.velocityStatus
          percentage_change_30_days := vm.percentageChange
          posts_last_14_days := vm.last14DaysCount
          posts_previous_14_days := vm.previous14DaysCount
          velocity_trend_14_days := vm.velocityStatus14Days
          percentage_change_14_days := vm.percentageChange14Days
          aeo_optimized_count := aeo.aeo_optimized_count
          aeo_optimized_percentage := aeo.aeo_percentage
          non_aeo_count := aeo.non_aeo_count
          non_aeo_percentage := aeo.non_aeo_percentage
          aeo_optimized_titles := aeo.aeo_optimized_titles
          non_aeo_titles := aeo.non_aeo_titles }) tnow

/-! ### Per-job operation traces (claim C7) -/

/-- The job-store operations the orchestrator issues against a single job id:
creation, the `processing` status update, and the two terminal operations. -/
inductive JobOp where
  | create (domain : String) (now : Int)
  | toProcessing
  | complete (r : JobResult) (now : Int)
  | fail (e : String) (now : Int)

def applyOp (jobId : String) (store : JobStore) : JobOp → JobStore
  | .create d t => createJob store jobId d t
  | .toProcessing => updateJob store jobId { status := some .processing }
  | .complete r t => completeJob store jobId r t
  | .fail e t => failJob store jobId e t

def runOps (jobId : String) (store : JobStore) (ops : List JobOp) : JobStore :=
  ops.foldl (applyOp jobId) store

/-- The op sequences `processJob` can have issued for one job at any point in
time: after `createJob`, the job is first marked `processing`, then at most one
terminal operation runs (`completeJob` on the success paths, `failJob` in the
catch-all), and nothing after it. -/
inductive OrchOps : List JobOp → Prop where
  | created (d : String) (t : Int) : OrchOps [.create d t]
  | started (d : String) (t : Int) : OrchOps [.create d t, .toProcessing]
  | done (d : String) (t : Int) (r : JobResult) (t2 : Int) :
      OrchOps [.create d t, .toProcessing, .complete r t2]
  | failedRun (d : String) (t : Int) (e : String) (t2 : Int) :
      OrchOps [.create d t, .toProcessing, .fail e t2]

/-- The result/error half of the job-record invariant: exactly one of
`{result, error}` is set, and only in a terminal status. -/
def resultErrorOK (j : Job) : Prop :=
  (j.status = .completed → j.result.isSome ∧ j.error = none) ∧
    (j.status = .failed → j.error.isSome ∧ j.result = none) ∧
    ((j.status = .pending ∨ j.status = .processing) → j.result = none ∧ j.error = none)

/-- The status of the job after each prefix of the op sequence. -/
def statusHistory (jobId : String) (store : JobStore) (ops : List JobOp) :
    List (Option JobStatus) :=
  (List.range ops.length).map
    (fun n => (getJob (runOps jobId store (ops.take (n + 1))) jobId).map Job.status)

/-! ### Counting lemmas -/

lemma Counts.add_def (a b : Counts) :
    a.add b = ⟨a.last30 + b.last30, a.prev30 + b.prev30,
               a.last14 + b.last14, a.prev14 + b.prev14⟩ := rfl

lemma Counts.zero_add (c : Counts) : Counts.add ⟨0, 0, 0, 0⟩ c = c := by
  cases c; simp [Counts.add]

lemma Counts.add_assoc (a b c : Counts) : (a.add b).add c = a.add (b.add c) := by
  simp [Counts.add, Nat.add_assoc]

lemma foldl_counts_init (g : BlogPost → Counts) :
    ∀ (ps : List BlogPost) (acc : Counts),
      ps.foldl (fun a p => a.add (g p)) acc =
        acc.add (ps.foldl (fun a p => a.add (g p)) ⟨0, 0, 0, 0⟩) := by
  intro ps
  induction ps with
  | nil => intro acc; cases acc; simp [Counts.add]
  | cons p ps ih =>
    intro acc
    simp only [List.foldl_cons]
    rw [ih (acc.add (g p)), ih (Counts.add ⟨0, 0, 0, 0⟩ (g p)),
      Counts.zero_add, Counts.add_assoc]

lemma tallyPosts_cons (dateParse : String → Option JDate)
    (now a b c d : JDate) (p : BlogPost) (ps : List BlogPost) :
    tallyPosts dateParse now a b c d (p :: ps) =
      (postContrib dateParse now a b c d p).add (tallyPosts dateParse now a b c d ps) := by
  simp only [tallyPosts, List.foldl_cons]
  rw [foldl_counts_init, Counts.zero_add]

lemma postContrib_window_excl (dateParse : String → Option JDate)
    (now a b c d : JDate) (p : BlogPost) :
    (postContrib dateParse now a b c d p).last30 +
        (postContrib dateParse now a b c d p).prev30 ≤ 1 ∧
      (postContrib dateParse now a b c d p).last14 +
        (postContrib dateParse now a b c d p).prev14 ≤ 1 := by
  unfold postContrib
  by_cases hp : p.publishDate = ""
  · simp [hp]
  · rw [if_neg hp]
    cases hd : dateParse p.publishDate with
    | none => simp
    | some d0 =>
      dsimp only
      split_ifs <;> simp [Counts.ofPairs]

lemma postContrib_skipped (dateParse : String → Option JDate)
    (now a b c d : JDate) (p : BlogPost)
    (h : p.publishDate = "" ∨ dateParse p.publishDate = none) :
    postContrib dateParse now a b c d p = ⟨0, 0, 0, 0⟩ := by
  rcases h with h | h <;> simp [postContrib, h]

lemma tallyPosts_window_bound (dateParse : String → Option JDate)
    (now a b c d : JDate) (posts : List BlogPost) :
    (tallyPosts dateParse now a b c d posts).last30 +
        (tallyPosts dateParse now a b c d posts).prev30 ≤ posts.length ∧
      (tallyPosts dateParse now a b c d posts).last14 +
        (tallyPosts dateParse now a b c d posts).prev14 ≤ posts.length := by
  induction posts with
  | nil => simp [tallyPosts]
  | cons p ps ih =>
    have hb := postContrib_window_excl dateParse now a b c d p
    rw [tallyPosts_cons]
    simp only [Counts.add_def, List.length_cons]
    omega

lemma postContrib_14_within_30 (dateParse : String → Option JDate)
    (now : JDate) (h2 : now.tod < msPerDay) (p : BlogPost) :
    (postContrib dateParse now (now.subDays 30) ((now.subDays 60).startOfDay)
        (now.subDays 14) ((now.subDays 28).startOfDay) p).last14 +
      (postContrib dateParse now (now.subDays 30) ((now.subDays 60).startOfDay)
        (now.subDays 14) ((now.subDays 28).startOfDay) p).prev14 ≤
      (postContrib dateParse now (now.subDays 30) ((now.subDays 60).startOfDay)
        (now.subDays 14) ((now.subDays 28).startOfDay) p).last30 := by
  have h2' : now.tod < 86400000 := by simpa [msPerDay] using h2
  unfold postContrib
  by_cases hp : p.publishDate = ""
  · simp [hp]
  · rw [if_neg hp]
    cases hd : dateParse p.publishDate with
    | none => simp
    | some d0 =>
      dsimp only
      simp only [JDate.toMs, JDate.subDays, JDate.startOfDay, msPerDay]
      split_ifs <;> simp [Counts.ofPairs] <;> omega

/-- Claim C9: for every post list and each window size, the current-window and
previous-window counts sum to at most the number of posts; a post with an empty
or unparseable `publishDate` contributes to neither window, and no post
contributes to both windows of the same window size. -/
theorem window_counts_bounded (dateParse : String → Option JDate) (now : JDate)
    (posts : List BlogPost) (title : Option String) :
    ((analyzeContentVelocity dateParse now posts title).last30DaysCount +
        (analyzeContentVelocity dateParse now posts title).previous30DaysCount ≤
        posts.length) ∧
      ((analyzeContentVelocity dateParse now posts title).last14DaysCount +
        (analyzeContentVelocity dateParse now posts title).previous14DaysCount ≤
        posts.length) ∧
      (∀ a b c d : JDate, ∀ p : BlogPost,
        (p.publishDate = "" ∨ dateParse p.publishDate = none) →
          postContrib dateParse now a b c d p = ⟨0, 0, 0, 0⟩) ∧
      (∀ a b c d : JDate, ∀ p : BlogPost,
        (postContrib dateParse now a b c d p).last30 +
            (postContrib dateParse now a b c d p).prev30 ≤ 1 ∧
          (postContrib dateParse now a b c d p).last14 +
            (postContrib dateParse now a b c d p).prev14 ≤ 1) := by
  have hb := tallyPosts_window_bound dateParse now (now.subDays 30)
    ((now.subDays 60).startOfDay) (now.subDays 14) ((now.subDays 28).startOfDay) posts
  refine ⟨?_, ?_, ?_, ?_⟩
  · simpa [analyzeContentVelocity] using hb.1
  · simpa [analyzeContentVelocity] using hb.2
  · exact fun a b c d p h => postContrib_skipped dateParse now a b c d p h
  · exact fun a b c d p => postContrib_window_excl dateParse now a b c d p

/-- Claim C9 witness: the bound evaluated at a concrete two-post list, and a
skipped unparseable post contributing nothing. -/
theorem window_counts_bounded_witness :
    ((analyzeContentVelocity (fun _ => some ⟨90, 0⟩) ⟨100, 0⟩
        [⟨"a", "x"⟩, ⟨"b", "y"⟩] none).last30DaysCount +
      (analyzeContentVelocity (fun _ => some ⟨90, 0⟩) ⟨100, 0⟩
        [⟨"a", "x"⟩, ⟨"b", "y"⟩] none).previous30DaysCount ≤ 2) ∧
    postContrib (fun _ => none) ⟨100, 0⟩ ⟨70, 0⟩ ⟨40, 0⟩ ⟨86, 0⟩ ⟨72, 0⟩
        ⟨"t", "junk"⟩ = ⟨0, 0, 0, 0⟩ :=
  ⟨(window_counts_bounded (fun _ => some ⟨90, 0⟩) ⟨100, 0⟩
      [⟨"a", "x"⟩, ⟨"b", "y"⟩] none).1,
    (window_counts_bounded (fun _ => none) ⟨100, 0⟩ [] none).2.2.1
      ⟨70, 0⟩ ⟨40, 0⟩ ⟨86, 0⟩ ⟨72, 0⟩ ⟨"t", "junk"⟩ (Or.inr rfl)⟩

/-- Claim C10: both 14-day windows lie inside the trailing 30-day span, so the
14-day counts sum to at most the current 30-day count. -/
theorem fourteen_day_counts_within_30 (dateParse : String → Option JDate)
    (now : JDate) (posts : List BlogPost) (title : Option String)
    (h2 : now.tod < msPerDay) :
    (analyzeContentVelocity dateParse now posts title).last14DaysCount +
        (analyzeContentVelocity dateParse now posts title).previous14DaysCount ≤
      (analyzeContentVelocity dateParse now posts title).last30DaysCount := by
  simp only [analyzeContentVelocity]
  induction posts with
  | nil => simp [tallyPosts]
  | cons p ps ih =>
    have hp := postContrib_14_within_30 dateParse now h2 p
    rw [tallyPosts_cons]
    simp only [Counts.add_def]
    omega

/-- Claim C10 witness: the nesting inequality at a concrete instant and post
list. -/
theorem fourteen_day_counts_within_30_witness :
    ((⟨100, 43200000⟩ : JDate).tod < msPerDay) ∧
    (analyzeContentVelocity (fun _ => some ⟨95, 0⟩) ⟨100, 43200000⟩
        [⟨"a", "x"⟩] none).last14DaysCount +
      (analyzeContentVelocity (fun _ => some ⟨95, 0⟩) ⟨100, 43200000⟩
        [⟨"a", "x"⟩] none).previous14DaysCount ≤
      (analyzeContentVelocity (fun _ => some ⟨95, 0⟩) ⟨100, 43200000⟩
        [⟨"a", "x"⟩] none).last30DaysCount :=
  ⟨by decide,
    fourteen_day_counts_within_30 (fun _ => some ⟨95, 0⟩) ⟨100, 43200000⟩
      [⟨"a", "x"⟩] none (by decide)⟩

lemma velocityLabelPct_spec (current previous : Nat) :
    round2 (velocityLabelPct current previous).1 = specPercentageChange current previous ∧
      (velocityLabelPct current previous).2 = specTrendLabel current previous := by
  unfold velocityLabelPct specPercentageChange specTrendLabel
  by_cases hp : 0 < previous
  · have hpq : (0 : Rat) < (previous : Rat) := by exact_mod_cast hp
    rw [if_pos hp, if_pos hp, if_pos hp]
    refine ⟨rfl, ?_⟩
    dsimp only
    rcases Nat.lt_trichotomy current previous with hlt | heq | hgt
    · have hneg : (((current : Rat) - (previous : Rat)) / (previous : Rat)) * 100 < 0 := by
        have hnum : ((current : Rat) - (previous : Rat)) < 0 := by
          have : (current : Rat) < (previous : Rat) := by exact_mod_cast hlt
          linarith
        have := div_neg_of_neg_of_pos hnum hpq
        nlinarith
      rw [if_neg (by linarith), if_pos hneg, if_neg (by omega : ¬previous < current),
        if_pos hlt]
    · subst heq
      have hzero : (((current : Rat) - (current : Rat)) / (current : Rat)) * 100 = 0 := by
        simp
      rw [hzero]
      rw [if_neg (by norm_num), if_neg (by norm_num), if_neg (by omega : ¬current < current),
        if_neg (by omega : ¬current < current)]
    · have hposq : (0 : Rat) < (((current : Rat) - (previous : Rat)) / (previous : Rat)) * 100 := by
        have hnum : (0 : Rat) < ((current : Rat) - (previous : Rat)) := by
          have : (previous : Rat) < (current : Rat) := by exact_mod_cast hgt
          linarith
        have := div_pos hnum hpq
        nlinarith
      rw [if_pos hposq, if_pos hgt]
  · have hp0 : previous = 0 := by omega
    subst hp0
    rw [if_neg hp, if_neg hp, if_neg hp]
    by_cases hc : 0 < current
    · rw [if_pos (And.intro hc rfl), if_pos hc, if_pos hc]
      exact ⟨by norm_num [round2], rfl⟩
    · have hc0 : current = 0 := by omega
      subst hc0
      rw [if_neg (by simp), if_neg (by simp), if_neg hc, if_neg hc]
      exact ⟨by norm_num [round2], rfl⟩

/-- Claim C3: for each window size, the percentage change and trend returned by
`analyzeContentVelocity` follow the specified policy: with a nonzero previous
count, `round2((current - previous) / previous * 100)` and the sign of the
change; `100`/up from zero to something; `-100`/down (the formula's own value)
from something to zero; `0`/no-change when both counts are zero. -/
theorem percentage_trend_policy (dateParse : String → Option JDate) (now : JDate)
    (posts : List BlogPost) (title : Option String) :
    ((analyzeContentVelocity dateParse now posts title).percentageChange =
        specPercentageChange (analyzeContentVelocity dateParse now posts title).last30DaysCount
          (analyzeContentVelocity dateParse now posts title).previous30DaysCount) ∧
      ((analyzeContentVelocity dateParse now posts title).velocityStatus =
        specTrendLabel (analyzeContentVelocity dateParse now posts title).last30DaysCount
          (analyzeContentVelocity dateParse now posts title).previous30DaysCount) ∧
      ((analyzeContentVelocity dateParse now posts title).percentageChange14Days =
        specPercentageChange (analyzeContentVelocity dateParse now posts title).last14DaysCount
          (analyzeContentVelocity dateParse now posts title).previous14DaysCount) ∧
      ((analyzeContentVelocity dateParse now posts title).velocityStatus14Days =
        specTrendLabel (analyzeContentVelocity dateParse now posts title).last14DaysCount
          (analyzeContentVelocity dateParse now posts title).previous14DaysCount) ∧
      specPercentageChange 5 0 = 100 ∧ specTrendLabel 5 0 = "Velocity up" ∧
      specPercentageChange 0 5 = -100 ∧ specTrendLabel 0 5 = "Velocity down" ∧
      specPercentageChange 0 0 = 0 ∧ specTrendLabel 0 0 = "No change" := by
  simp only [analyzeContentVelocity]
  refine ⟨(velocityLabelPct_spec _ _).1, (velocityLabelPct_spec _ _).2,
    (velocityLabelPct_spec _ _).1, (velocityLabelPct_spec _ _).2, ?_, ?_, ?_, ?_, ?_, ?_⟩
  · norm_num [specPercentageChange]
  · norm_num [specTrendLabel]
  · norm_num [specPercentageChange, round2]
  · norm_num [specTrendLabel]
  · norm_num [specPercentageChange]
  · norm_num [specTrendLabel]

/-- Claim C1 counterexample: `now` is day 100 at noon; the parsed post date is
day 70 at start of day, which is exactly the start-of-day of `now - 30 days`.
The claim says this post is counted in the current 30-day window; the code
counts it in the previous window (0 current, 1 previous), because
`last30DaysStart` is NOT normalized to start of day. -/
theorem boundary_post_cex :
    (analyzeContentVelocity (fun _ => some ⟨70, 0⟩) ⟨100, 43200000⟩
        [⟨"post", "d"⟩] none).last30DaysCount = 0 ∧
      (analyzeContentVelocity (fun _ => some ⟨70, 0⟩) ⟨100, 43200000⟩
        [⟨"post", "d"⟩] none).previous30DaysCount = 1 ∧
      (⟨70, 0⟩ : JDate) = ((⟨100, 43200000⟩ : JDate).subDays 30).startOfDay := by
  refine ⟨by decide, by decide, by decide⟩

/-- Claim C1 (amended): only the previous-window starts are normalized to start
of day; the current-window starts keep `now`'s time of day (`now` itself is also
not normalized).  Consequently a post whose parsed date is exactly the
start-of-day of `now - 30 days` is counted in the previous 30-day window
whenever `now` is strictly past start of day, and in the current window only
when `now` is exactly at start of day; a post dated `now - 31 days`
(start of day) is always counted in the previous 30-day window. -/
theorem boundary_post_windows (dateParse : String → Option JDate) (now : JDate)
    (t s30 s31 : String)
    (h1 : 0 ≤ now.tod) (h2 : now.tod < msPerDay)
    (hs30 : s30 ≠ "") (hs31 : s31 ≠ "")
    (hp30 : dateParse s30 = some ((now.subDays 30).startOfDay))
    (hp31 : dateParse s31 = some ((now.subDays 31).startOfDay)) :
    ((0 < now.tod →
        (analyzeContentVelocity dateParse now [⟨t, s30⟩] none).last30DaysCount = 0 ∧
        (analyzeContentVelocity dateParse now [⟨t, s30⟩] none).previous30DaysCount = 1) ∧
      (now.tod = 0 →
        (analyzeContentVelocity dateParse now [⟨t, s30⟩] none).last30DaysCount = 1 ∧
        (analyzeContentVelocity dateParse now [⟨t, s30⟩] none).previous30DaysCount = 0)) ∧
      (analyzeContentVelocity dateParse now [⟨t, s31⟩] none).last30DaysCount = 0 ∧
      (analyzeContentVelocity dateParse now [⟨t, s31⟩] none).previous30DaysCount = 1 := by
  have h2' : now.tod < 86400000 := by simpa [msPerDay] using h2
  have key : ∀ s : String,
      tallyPosts dateParse now (now.subDays 30) ((now.subDays 60).startOfDay)
          (now.subDays 14) ((now.subDays 28).startOfDay) [⟨t, s⟩] =
        postContrib dateParse now (now.subDays 30) ((now.subDays 60).startOfDay)
          (now.subDays 14) ((now.subDays 28).startOfDay) ⟨t, s⟩ := by
    intro s
    rw [show ([⟨t, s⟩] : List BlogPost) = ⟨t, s⟩ :: [] from rfl, tallyPosts_cons]
    show Counts.add _ (tallyPosts _ _ _ _ _ _ []) = _
    cases hq : postContrib dateParse now (now.subDays 30) ((now.subDays 60).startOfDay)
      (now.subDays 14) ((now.subDays 28).startOfDay) ⟨t, s⟩
    simp [Counts.add, tallyPosts]
  constructor
  · constructor
    · intro htod
      simp only [analyzeContentVelocity]
      rw [key s30]
      unfold postContrib
      rw [if_neg hs30, hp30]
      dsimp only
      simp only [JDate.toMs, JDate.subDays, JDate.startOfDay, msPerDay]
      split_ifs <;> simp [Counts.ofPairs] <;> omega
    · intro htod
      simp only [analyzeContentVelocity]
      rw [key s30]
      unfold postContrib
      rw [if_neg hs30, hp30]
      dsimp only
      simp only [JDate.toMs, JDate.subDays, JDate.startOfDay, msPerDay]
      split_ifs <;> simp [Counts.ofPairs] <;> omega
  · simp only [analyzeContentVelocity]
    rw [key s31]
    unfold postContrib
    rw [if_neg hs31, hp31]
    dsimp only
    simp only [JDate.toMs, JDate.subDays, JDate.startOfDay, msPerDay]
    split_ifs <;> simp [Counts.ofPairs] <;> omega

/-- Claim C1 (amended) witness: concrete instant one millisecond past start of
day; the boundary post lands in the previous 30-day window. -/
theorem boundary_post_windows_witness :
    (analyzeContentVelocity
        (fun s => if s = "a" then some ⟨70, 0⟩ else some ⟨69, 0⟩)
        ⟨100, 1⟩ [⟨"t", "a"⟩] none).last30DaysCount = 0 ∧
      (analyzeContentVelocity
        (fun s => if s = "a" then some ⟨70, 0⟩ else some ⟨69, 0⟩)
        ⟨100, 1⟩ [⟨"t", "a"⟩] none).previous30DaysCount = 1 :=
  ((boundary_post_windows
      (fun s => if s = "a" then some ⟨70, 0⟩ else some ⟨69, 0⟩)
      ⟨100, 1⟩ "t" "a" "b" (by decide) (by decide) (by decide) (by decide)
      (by decide) (by decide)).1.1 (by decide))

lemma scrapeBlogPosts_def (domain : String) (parse : String → Option JVal)
    (outcomes : Nat → AttemptOutcome) :
    scrapeBlogPosts domain parse outcomes =
      scrapeLoop parse outcomes domain (2 + 1) 0 0 none [] := rfl

lemma scrapeLoop_all_server (parse : String → Option JVal)
    (outcomes : Nat → AttemptOutcome) (domain : String) :
    ∀ (fuel attempt issued : Nat) (le : Option String) (ds : List Nat),
      (∀ i, i < fuel → isServerFailure (outcomes (attempt + i)) = true) →
      ∃ m, scrapeLoop parse outcomes domain fuel attempt issued le ds =
        ⟨issued + fuel,
          ds.reverse ++ (List.range fuel).map (fun i => backoffDelay (attempt + i)),
          .error m⟩ := by
  intro fuel
  induction fuel with
  | zero =>
    intro attempt issued le ds _
    exact ⟨le.getD ("Failed to scrape " ++ domain ++ " after 3 attempts. " ++
      "Anchor Browser service may be experiencing issues."), by simp [scrapeLoop]⟩
  | succ f ih =>
    intro attempt issued le ds h
    have hstep : ∃ m0, scrapeLoop parse outcomes domain (f + 1) attempt issued le ds =
        scrapeLoop parse outcomes domain f (attempt + 1) (issued + 1) (some m0)
          (backoffDelay attempt :: ds) := by
      cases ho : outcomes attempt with
      | networkError m =>
        exact ⟨"Failed to connect to Anchor Browser API: " ++ m, by simp [scrapeLoop, ho]⟩
      | response s payload =>
        have hs : 500 ≤ s := by
          have hx := h 0 (by omega)
          rw [Nat.add_zero, ho] at hx
          simp only [isServerFailure, decide_eq_true_eq] at hx
          exact hx.1
        exact ⟨"Anchor Browser server error (" ++ toString s ++ ")",
          by simp [scrapeLoop, ho, if_pos hs]⟩
    obtain ⟨m0, e0⟩ := hstep
    obtain ⟨m, e⟩ := ih (attempt + 1) (issued + 1) (some m0) (backoffDelay attempt :: ds)
      (fun i hi => by
        have := h (i + 1) (by omega)
        rwa [show attempt + (i + 1) = attempt + 1 + i from by omega] at this)
    refine ⟨m, ?_⟩
    rw [e0, e]
    have harg : (fun i => backoffDelay (attempt + 1 + i)) =
        (fun i => backoffDelay (attempt + (i + 1))) := by
      funext i
      rw [show attempt + 1 + i = attempt + (i + 1) from by omega]
    simp [List.range_succ_eq_map, harg, List.map_map, Function.comp]
    omega

lemma scrapeLoop_client_abort (parse : String → Option JVal)
    (outcomes : Nat → AttemptOutcome) (domain : String) :
    ∀ (k fuel attempt issued : Nat) (le : Option String) (ds : List Nat),
      k < fuel →
      (∀ i, i < k → isServerFailure (outcomes (attempt + i)) = true) →
      ∀ s payload, outcomes (attempt + k) = .response s payload → 400 ≤ s → s < 500 →
        (scrapeLoop parse outcomes domain fuel attempt issued le ds).attemptsIssued =
            issued + k + 1 ∧
          ∃ e, (scrapeLoop parse outcomes domain fuel attempt issued le ds).outcome =
            .error e := by
  intro k
  induction k with
  | zero =>
    intro fuel attempt issued le ds hk _ s payload ho h4 h5
    obtain ⟨f, rfl⟩ : ∃ f, fuel = f + 1 := ⟨fuel - 1, by omega⟩
    rw [Nat.add_zero] at ho
    constructor
    · simp [scrapeLoop, ho, if_neg (by omega : ¬500 ≤ s), if_pos h4]
    · exact ⟨"Anchor Browser API client error: " ++ toString s ++
        ". Please check your request parameters.",
        by simp [scrapeLoop, ho, if_neg (by omega : ¬500 ≤ s), if_pos h4]⟩
  | succ n ih =>
    intro fuel attempt issued le ds hk h s payload ho h4 h5
    obtain ⟨f, rfl⟩ : ∃ f, fuel = f + 1 := ⟨fuel - 1, by omega⟩
    have hstep : ∃ m0, scrapeLoop parse outcomes domain (f + 1) attempt issued le ds =
        scrapeLoop parse outcomes domain f (attempt + 1) (issued + 1) (some m0)
          (backoffDelay attempt :: ds) := by
      cases h0 : outcomes attempt with
      | networkError m =>
        exact ⟨"Failed to connect to Anchor Browser API: " ++ m, by simp [scrapeLoop, h0]⟩
      | response st pl =>
        have hs : 500 ≤ st := by
          have hx := h 0 (by omega)
          rw [Nat.add_zero, h0] at hx
          simp only [isServerFailure, decide_eq_true_eq] at hx
          exact hx.1
        exact ⟨"Anchor Browser server error (" ++ toString st ++ ")",
          by simp [scrapeLoop, h0, if_pos hs]⟩
    obtain ⟨m0, e0⟩ := hstep
    have hrec := ih f (attempt + 1) (issued + 1) (some m0) (backoffDelay attempt :: ds)
      (by omega)
      (fun i hi => by
        have := h (i + 1) (by omega)
        rwa [show attempt + (i + 1) = attempt + 1 + i from by omega] at this)
      s payload (by rwa [show attempt + 1 + n = attempt + (n + 1) from by omega]) h4 h5
    rw [e0]
    exact ⟨by rw [hrec.1]; omega, hrec.2⟩

/-- Claim C2: when every attempt meets a server-side failure (HTTP 500-599, or
a network failure with no response), `scrapeBlogPosts` issues exactly 3
attempts with backoff delays 0, 5s and 10s, then fails terminally; a
client-side failure (4xx) on any attempt aborts immediately with a terminal
error and no further attempts (4xx on attempt 1 means exactly 1 attempt,
0 retries). -/
theorem retry_policy (domain : String) (parse : String → Option JVal)
    (outcomes : Nat → AttemptOutcome) :
    ((∀ i, i < 3 → isServerFailure (outcomes i) = true) →
      (scrapeBlogPosts domain parse outcomes).attemptsIssued = 3 ∧
      (scrapeBlogPosts domain parse outcomes).delays = [0, 5000, 10000] ∧
      ∃ e, (scrapeBlogPosts domain parse outcomes).outcome = .error e) ∧
    (∀ k, k < 3 → (∀ i, i < k → isServerFailure (outcomes i) = true) →
      ∀ s payload, outcomes k = .response s payload → 400 ≤ s → s < 500 →
        (scrapeBlogPosts domain parse outcomes).attemptsIssued = k + 1 ∧
        ∃ e, (scrapeBlogPosts domain parse outcomes).outcome = .error e) := by
  constructor
  · intro h
    obtain ⟨m, e⟩ := scrapeLoop_all_server parse outcomes domain 3 0 0 none []
      (fun i hi => by simpa using h i hi)
    have hdef : scrapeBlogPosts domain parse outcomes =
        scrapeLoop parse outcomes domain 3 0 0 none [] := rfl
    rw [hdef, e]
    refine ⟨rfl, ?_, ⟨m, rfl⟩⟩
    show ([] : List Nat).reverse ++ (List.range 3).map (fun i => backoffDelay (0 + i)) =
      [0, 5000, 10000]
    decide
  · intro k hk h s payload ho h4 h5
    have := scrapeLoop_client_abort parse outcomes domain k 3 0 0 none [] hk
      (fun i hi => by simpa using h i hi) s payload (by simpa using ho) h4 h5
    have hdef : scrapeBlogPosts domain parse outcomes =
        scrapeLoop parse outcomes domain 3 0 0 none [] := rfl
    rw [hdef]
    exact ⟨by rw [this.1]; omega, this.2⟩

/-- Claim C2 witness: three straight 500s give 3 attempts with delays
`[0, 5000, 10000]`; a 404 on the first attempt gives exactly 1 attempt. -/
theorem retry_policy_witness :
    (scrapeBlogPosts "example.com" (fun _ => none)
        (fun _ => .response 500 .jundef)).attemptsIssued = 3 ∧
      (scrapeBlogPosts "example.com" (fun _ => none)
        (fun _ => .response 500 .jundef)).delays = [0, 5000, 10000] ∧
      (scrapeBlogPosts "example.com" (fun _ => none)
        (fun _ => .response 404 .jundef)).attemptsIssued = 1 :=
  ⟨((retry_policy "example.com" (fun _ => none) (fun _ => .response 500 .jundef)).1
      (fun i _ => by decide)).1,
    ((retry_policy "example.com" (fun _ => none) (fun _ => .response 500 .jundef)).1
      (fun i _ => by decide)).2.1,
    (((retry_policy "example.com" (fun _ => none) (fun _ => .response 404 .jundef)).2
      0 (by decide) (fun i hi => absurd hi (by omega)) 404 .jundef rfl
      (by decide) (by decide)).1)⟩

/-- Claim C4: on a successful (non-4xx, non-5xx) attempt whose payload defeats
every normalization stage, `scrapeBlogPosts` returns the empty result
`⟨none, []⟩` as a successful outcome rather than an error. -/
theorem malformed_payload_empty_success (domain : String)
    (parse : String → Option JVal) (outcomes : Nat → AttemptOutcome)
    (s : Nat) (payload : JVal)
    (h0 : outcomes 0 = .response s payload) (hs : s < 400)
    (hn : normalizationFails parse (unwrapResult payload)) :
    (scrapeBlogPosts domain parse outcomes).outcome = .ok ⟨none, []⟩ := by
  rw [scrapeBlogPosts_def]
  have hnorm : normalizeResult parse payload = some ⟨none, []⟩ := by
    unfold normalizeResult
    cases hu : unwrapResult payload with
    | jstr s2 =>
      rw [hu] at hn
      obtain ⟨hp, hsub⟩ := hn
      dsimp only
      rw [hp]
      dsimp only
      cases hb : extractBraces s2 with
      | none => rfl
      | some sub =>
        dsimp only
        rw [hsub sub hb]
    | jnum n => rfl
    | jbool b => rfl
    | jundef => rfl
    | jnull => rw [hu] at hn; exact absurd hn (by simp [normalizationFails])
    | jarr es => rw [hu] at hn; exact absurd hn (by simp [normalizationFails])
    | jobj fs => rw [hu] at hn; exact absurd hn (by simp [normalizationFails])
  simp [scrapeLoop, h0, if_neg (by omega : ¬500 ≤ s), if_neg (by omega : ¬400 ≤ s), hnorm]

/-- Claim C4 witness: a numeric payload (neither object nor string) on a 200
response degrades to the empty result. -/
theorem malformed_payload_empty_success_witness :
    (scrapeBlogPosts "example.com" (fun _ => none)
        (fun _ => .response 200 (.jnum 7))).outcome = .ok ⟨none, []⟩ :=
  malformed_payload_empty_success "example.com" (fun _ => none)
    (fun _ => .response 200 (.jnum 7)) 200 (.jnum 7) rfl (by decide) trivial

lemma findIdx?_eq_some_iff {α : Type} (p : α → Bool) :
    ∀ (l : List α) (i j : Nat),
      l.findIdx? p i = some j ↔
        (i ≤ j ∧ (∃ a, l[j - i]? = some a ∧ p a = true) ∧
          ∀ k, k < j - i → ∀ b, l[k]? = some b → p b = false) := by
  intro l
  induction l with
  | nil => intro i j; simp [List.findIdx?_nil]
  | cons x xs ih =>
    intro i j
    rw [List.findIdx?_cons]
    by_cases hx : p x = true
    · rw [if_pos hx]
      constructor
      · intro h
        have hj : i = j := Option.some.inj h
        subst hj
        refine ⟨Nat.le_refl i, ⟨x, by simp, hx⟩, ?_⟩
        intro k hk
        exact absurd hk (by omega)
      · rintro ⟨hij, ⟨a, ha, hpa⟩, hmin⟩
        by_cases hji : j = i
        · rw [hji]
        · have h0 : (x :: xs)[0]? = some x := List.getElem?_cons_zero
          have := hmin 0 (by omega) x h0
          rw [hx] at this
          exact absurd this (by simp)
    · rw [if_neg hx]
      rw [ih (i + 1) j]
      have hxf : p x = false := by
        revert hx; cases p x <;> simp
      constructor
      · rintro ⟨hij, ⟨a, ha, hpa⟩, hmin⟩
        have hsub : j - i = (j - (i + 1)) + 1 := by omega
        refine ⟨by omega, ⟨a, ?_, hpa⟩, ?_⟩
        · rw [hsub, List.getElem?_cons_succ]
          exact ha
        · intro k hk b hb
          cases k with
          | zero =>
            rw [List.getElem?_cons_zero] at hb
            rw [← Option.some.inj hb]
            exact hxf
          | succ m =>
            rw [List.getElem?_cons_succ] at hb
            exact hmin m (by omega) b hb
      · rintro ⟨hij, ⟨a, ha, hpa⟩, hmin⟩
        have hji : i < j := by
          rcases Nat.lt_or_ge i j with h | h
          · exact h
          · have hj : j = i := by omega
            subst hj
            rw [Nat.sub_self, List.getElem?_cons_zero] at ha
            rw [← Option.some.inj ha, hxf] at hpa
            exact absurd hpa (by simp)
        have hsub : j - i = (j - (i + 1)) + 1 := by omega
        rw [hsub, List.getElem?_cons_succ] at ha
        refine ⟨by omega, ⟨a, ha, hpa⟩, ?_⟩
        intro k hk b hb
        refine hmin (k + 1) (by omega) b ?_
        rw [List.getElem?_cons_succ]
        exact hb

lemma pairwise_fst_lt_enumFrom {α : Type} :
    ∀ (n : Nat) (l : List α),
      (List.enumFrom n l).Pairwise (fun a b => a.1 < b.1) := by
  intro n l
  induction l generalizing n with
  | nil => simp
  | cons x xs ih =>
    rw [List.enumFrom_cons]
    refine List.Pairwise.cons ?_ (ih (n + 1))
    intro y hy
    have := List.le_fst_of_mem_enumFrom hy
    omega

lemma pairwise_fst_lt_enum {α : Type} (l : List α) :
    l.enum.Pairwise (fun a b => a.1 < b.1) :=
  pairwise_fst_lt_enumFrom 0 l

lemma keyMatches_pred_congr (a b : BlogPost) (h : keyMatches a b = true) :
    (fun r => keyMatches r a) = (fun r => keyMatches r b) := by
  unfold keyMatches at h ⊢
  simp only [Bool.and_eq_true, beq_iff_eq] at h
  funext r
  rw [h.1, h.2]

/-- Claim C5 counterexample: the `scrapeBlogPosts` of
`src/services/anchorBrowser.ts` (the revision the orchestrator imports) returns
the normalized posts `[{A,2024-01-01}, {A,2024-01-01}, {B,2024-01-01}]`
unchanged — three entries, the exact duplicate retained — not 2 unique
entries. -/
theorem dedup_missing_cex :
    (scrapeBlogPosts "example.com" (fun _ => none)
        (fun _ => .response 200 (.jobj [("blogTitle", .jstr "Blog"),
          ("posts", .jarr
            [.jobj [("title", .jstr "A"), ("publishDate", .jstr "2024-01-01")],
             .jobj [("title", .jstr "A"), ("publishDate", .jstr "2024-01-01")],
             .jobj [("title", .jstr "B"), ("publishDate", .jstr "2024-01-01")]])]))).outcome =
      .ok ⟨some "Blog",
        [⟨"A", "2024-01-01"⟩, ⟨"A", "2024-01-01"⟩, ⟨"B", "2024-01-01"⟩]⟩ := by
  decide

/-- Claim C5 (amended): the `part_002` revision of `scrapeBlogPosts`
deduplicates on the `(title, publishDate)` pair, keeping first occurrences in
order — its `dedupPosts` output is a sublist of the input, no two surviving
posts share a key, every input key survives, and the example list reduces to 2
unique entries — while the `src/services/anchorBrowser.ts` revision returns the
normalized posts without deduplication. -/
theorem dedup_respects_keys :
    (∀ posts : List BlogPost, (dedupPosts posts).Sublist posts) ∧
      (∀ posts : List BlogPost,
        (dedupPosts posts).Pairwise (fun a b => keyMatches a b = false)) ∧
      (∀ posts : List BlogPost, ∀ p ∈ posts,
        ∃ q ∈ dedupPosts posts, keyMatches q p = true) ∧
      dedupPosts [⟨"A", "2024-01-01"⟩, ⟨"A", "2024-01-01"⟩, ⟨"B", "2024-01-01"⟩] =
        [⟨"A", "2024-01-01"⟩, ⟨"B", "2024-01-01"⟩] := by
  refine ⟨?_, ?_, ?_, by decide⟩
  · intro posts
    have h1 := (List.filter_sublist (p :=
      fun ip => posts.findIdx? (fun q => keyMatches q ip.2) == some ip.1) posts.enum)
    have h2 := h1.map Prod.snd
    rwa [List.enum_map_snd] at h2
  · intro posts
    unfold dedupPosts
    rw [List.pairwise_map]
    have hpf := List.Pairwise.sublist
      (List.filter_sublist (p :=
        fun ip => posts.findIdx? (fun q => keyMatches q ip.2) == some ip.1) posts.enum)
      (pairwise_fst_lt_enum posts)
    refine hpf.imp_of_mem ?_
    intro a b ha hb hlt
    have hfa := (List.mem_filter.mp ha).2
    have hfb := (List.mem_filter.mp hb).2
    have hia : posts.findIdx? (fun q => keyMatches q a.2) = some a.1 := eq_of_beq hfa
    have hib : posts.findIdx? (fun q => keyMatches q b.2) = some b.1 := eq_of_beq hfb
    by_cases hkey : keyMatches a.2 b.2 = true
    · have hcong := keyMatches_pred_congr a.2 b.2 hkey
      rw [hcong, hib] at hia
      have := Option.some.inj hia
      omega
    · revert hkey; cases keyMatches a.2 b.2 <;> simp
  · intro posts p hp
    have hsome : (posts.findIdx? (fun q => keyMatches q p)).isSome = true := by
      rw [List.findIdx?_isSome]
      refine List.any_eq_true.mpr ⟨p, hp, ?_⟩
      unfold keyMatches
      simp
    obtain ⟨j, hj⟩ := Option.isSome_iff_exists.mp hsome
    obtain ⟨-, ⟨q, hq, hkq⟩, -⟩ := (findIdx?_eq_some_iff _ posts 0 j).mp hj
    rw [Nat.sub_zero] at hq
    refine ⟨q, ?_, hkq⟩
    unfold dedupPosts
    rw [List.mem_map]
    refine ⟨(j, q), List.mem_filter.mpr ⟨List.mk_mem_enum_iff_getElem?.mpr hq, ?_⟩, rfl⟩
    have hcong := keyMatches_pred_congr q p hkq
    rw [show (fun r => keyMatches r (j, q).2) = (fun r => keyMatches r p) from hcong]
    rw [hj]
    simp

/-- Claim C5 (amended) witness: the dedup properties evaluated at the concrete
example list. -/
theorem dedup_respects_keys_witness :
    (dedupPosts [⟨"A", "2024-01-01"⟩, ⟨"A", "2024-01-01"⟩, ⟨"B", "2024-01-01"⟩]).Sublist
        [⟨"A", "2024-01-01"⟩, ⟨"A", "2024-01-01"⟩, ⟨"B", "2024-01-01"⟩] ∧
      ∃ q ∈ dedupPosts [⟨"A", "2024-01-01"⟩, ⟨"A", "2024-01-01"⟩, ⟨"B", "2024-01-01"⟩],
        keyMatches q ⟨"A", "2024-01-01"⟩ = true :=
  ⟨dedup_respects_keys.1 _,
    dedup_respects_keys.2.2.1 _ ⟨"A", "2024-01-01"⟩ (by decide)⟩

lemma orch_state_create (store : JobStore) (jobId d : String) (t : Int) :
    getJob (runOps jobId store [.create d t]) jobId =
      some ⟨jobId, d, .pending, none, none, t, none⟩ := by
  simp [runOps, applyOp, createJob, getJob]

lemma orch_state_processing (store : JobStore) (jobId d : String) (t : Int) :
    getJob (runOps jobId store [.create d t, .toProcessing]) jobId =
      some ⟨jobId, d, .processing, none, none, t, none⟩ := by
  simp [runOps, applyOp, createJob, updateJob, applyUpdate, overrideWith, getJob]

lemma orch_state_completed (store : JobStore) (jobId d : String) (t : Int)
    (r : JobResult) (t2 : Int) :
    getJob (runOps jobId store [.create d t, .toProcessing, .complete r t2]) jobId =
      some ⟨jobId, d, .completed, some r, none, t, some t2⟩ := by
  simp [runOps, applyOp, createJob, updateJob, completeJob, applyUpdate, overrideWith,
    getJob]

lemma orch_state_failed (store : JobStore) (jobId d : String) (t : Int)
    (e : String) (t2 : Int) :
    getJob (runOps jobId store [.create d t, .toProcessing, .fail e t2]) jobId =
      some ⟨jobId, d, .failed, none, some e, t, some t2⟩ := by
  simp [runOps, applyOp, createJob, updateJob, failJob, applyUpdate, overrideWith,
    getJob]

/-- Claim C7: along every orchestrator-driven op sequence for a job, every
reached record satisfies "exactly one of result/error is set, and only in a
terminal status", and the status history is a prefix of
`pending → processing → completed` or `pending → processing → failed` — never
backward, never terminal without having been `processing`. -/
theorem job_lifecycle_invariant (store : JobStore) (jobId : String)
    (ops : List JobOp) (hops : OrchOps ops) :
    (∀ n, 1 ≤ n → n ≤ ops.length →
      ∃ j, getJob (runOps jobId store (ops.take n)) jobId = some j ∧ resultErrorOK j) ∧
      (statusHistory jobId store ops = [some .pending] ∨
        statusHistory jobId store ops = [some .pending, some .processing] ∨
        statusHistory jobId store ops =
          [some .pending, some .processing, some .completed] ∨
        statusHistory jobId store ops =
          [some .pending, some .processing, some .failed]) := by
  cases hops with
  | created d t =>
    constructor
    · intro n h1 h2
      simp only [List.length_cons, List.length_nil] at h2
      have hn : n = 1 := by omega
      subst hn
      exact ⟨_, orch_state_create store jobId d t, by simp [resultErrorOK]⟩
    · left
      simp [statusHistory, List.range_succ, orch_state_create store jobId d t]
  | started d t =>
    constructor
    · intro n h1 h2
      simp only [List.length_cons, List.length_nil] at h2
      interval_cases n
      · exact ⟨_, orch_state_create store jobId d t, by simp [resultErrorOK]⟩
      · exact ⟨_, orch_state_processing store jobId d t, by simp [resultErrorOK]⟩
    · right; left
      simp [statusHistory, List.range_succ, orch_state_create store jobId d t,
        orch_state_processing store jobId d t]
  | done d t r t2 =>
    constructor
    · intro n h1 h2
      simp only [List.length_cons, List.length_nil] at h2
      interval_cases n
      · exact ⟨_, orch_state_create store jobId d t, by simp [resultErrorOK]⟩
      · exact ⟨_, orch_state_processing store jobId d t, by simp [resultErrorOK]⟩
      · exact ⟨_, orch_state_completed store jobId d t r t2, by simp [resultErrorOK]⟩
    · right; right; left
      simp [statusHistory, List.range_succ, orch_state_create store jobId d t,
        orch_state_processing store jobId d t, orch_state_completed store jobId d t r t2]
  | failedRun d t e t2 =>
    constructor
    · intro n h1 h2
      simp only [List.length_cons, List.length_nil] at h2
      interval_cases n
      · exact ⟨_, orch_state_create store jobId d t, by simp [resultErrorOK]⟩
      · exact ⟨_, orch_state_processing store jobId d t, by simp [resultErrorOK]⟩
      · exact ⟨_, orch_state_failed store jobId d t e t2, by simp [resultErrorOK]⟩
    · right; right; right
      simp [statusHistory, List.range_succ, orch_state_create store jobId d t,
        orch_state_processing store jobId d t, orch_state_failed store jobId d t e t2]

/-- Claim C7 witness: a full create/processing/complete run on a concrete job,
with the invariant read off at its final state. -/
theorem job_lifecycle_invariant_witness :
    ∃ j, getJob (runOps "j1" (fun _ => none)
        (([JobOp.create "example.com" 0, JobOp.toProcessing,
          JobOp.complete (.noPosts "example.com" false none 0 0 "No posts found" 0) 5]).take 3))
        "j1" = some j ∧ resultErrorOK j :=
  (job_lifecycle_invariant (fun _ => none) "j1"
      [JobOp.create "example.com" 0, JobOp.toProcessing,
        JobOp.complete (.noPosts "example.com" false none 0 0 "No posts found" 0) 5]
      (OrchOps.done "example.com" 0
        (.noPosts "example.com" false none 0 0 "No posts found" 0) 5)).1
    3 (by omega) (by simp)

/-- Claim C8: the reaper runs every 10 minutes and one sweep deletes exactly
the jobs whose `createdAt` lies more than the 1-hour retention window in the
past, regardless of status; such a job is absent from subsequent `getJob`
lookups. -/
theorem reaper_policy (store : JobStore) (now : Int) (jobId : String) :
    REAPER_INTERVAL_MS = 10 * 60 * 1000 ∧
      RETENTION_MS = 60 * 60 * 1000 ∧
      (∀ j : Job, getJob (reapJobs store now) jobId = some j ↔
        (getJob store jobId = some j ∧ ¬(j.createdAt < now - RETENTION_MS))) ∧
      (∀ j : Job, getJob store jobId = some j → RETENTION_MS < now - j.createdAt →
        getJob (reapJobs store now) jobId = none) := by
  refine ⟨rfl, rfl, ?_, ?_⟩
  · intro j
    unfold getJob reapJobs
    cases hs : store jobId with
    | none => simp
    | some j0 =>
      dsimp only
      split_ifs with hc
      · constructor
        · intro h
          exact absurd h (by simp)
        · rintro ⟨hj, hn⟩
          rw [← Option.some.inj hj] at hn
          exact absurd hc hn
      · constructor
        · intro h
          refine ⟨h, ?_⟩
          rw [← Option.some.inj h]
          exact hc
        · exact fun h => h.1
  · intro j hj hlate
    unfold getJob at hj ⊢
    unfold reapJobs
    rw [hj]
    dsimp only
    rw [if_pos (by omega)]

/-- Claim C8 witness: a job created at time 0 is gone after a sweep at time
4000000 ms (more than an hour later). -/
theorem reaper_policy_witness :
    getJob (reapJobs (createJob (fun _ => none) "j1" "example.com" 0) 4000000) "j1" =
      none :=
  (reaper_policy (createJob (fun _ => none) "j1" "example.com" 0) 4000000 "j1").2.2.2
    ⟨"j1", "example.com", .pending, none, none, 0, none⟩ (by decide) (by decide)

lemma completeJob_after_processing (store : JobStore) (jobId : String) (j0 : Job)
    (hstore : store jobId = some j0) (R : JobResult) (tnow : Int) :
    getJob (completeJob (updateJob store jobId { status := some JobStatus.processing })
        jobId R tnow) jobId =
      some ⟨j0.id, j0.domain, .completed, some R, j0.error, j0.createdAt, some tnow⟩ := by
  simp [completeJob, updateJob, applyUpdate, overrideWith, getJob, hstore]

/-- Claim C6: on a job whose scrape returned a non-empty post list, a failing
classification call is caught and replaced by the zero-valued classification
fallback, and the job still completes with status `completed` — the
classification failure never fails the job. -/
theorem classification_failure_tolerated (dateParse : String → Option JDate)
    (now : JDate) (tnow : Int) (jobId domain : String)
    (sr : FetchedResult) (msg : String) (store : JobStore) (j0 : Job)
    (hstore : getJob store jobId = some j0) (herr : j0.error = none)
    (hposts : sr.posts ≠ []) :
    ∃ j m, getJob (processJob dateParse now tnow jobId domain (.ok sr) (.error msg) store)
        jobId = some j ∧
      j.status = .completed ∧
      j.error = none ∧
      j.result = some (.merged m) ∧
      m.aeo_optimized_count = 0 ∧ m.non_aeo_count = 0 ∧
      m.aeo_optimized_percentage = 0 ∧ m.non_aeo_percentage = 0 ∧
      m.aeo_optimized_titles = [] ∧ m.non_aeo_titles = [] := by
  have hempty : sr.posts.isEmpty = false := by
    cases hsp : sr.posts with
    | nil => exact absurd hsp hposts
    | cons p ps => rfl
  unfold getJob at hstore
  simp only [processJob, hempty, Bool.false_eq_true, if_false]
  rw [completeJob_after_processing store jobId j0 hstore]
  exact ⟨_, _, rfl, rfl, herr, rfl, rfl, rfl, rfl, rfl, rfl, rfl⟩

/-- Claim C6 witness: the completed job with zero-valued classification data at
concrete inputs. -/
theorem classification_failure_tolerated_witness :
    ∃ j m, getJob (processJob (fun _ => none) ⟨0, 0⟩ 5 "j1" "example.com"
        (.ok ⟨some "Blog", [⟨"t", "2024-01-01"⟩]⟩) (.error "x.ai down")
        (createJob (fun _ => none) "j1" "example.com" 0)) "j1" = some j ∧
      j.status = .completed ∧
      j.error = none ∧
      j.result = some (.merged m) ∧
      m.aeo_optimized_count = 0 ∧ m.non_aeo_count = 0 ∧
      m.aeo_optimized_percentage = 0 ∧ m.non_aeo_percentage = 0 ∧
      m.aeo_optimized_titles = [] ∧ m.non_aeo_titles = [] :=
  classification_failure_tolerated (fun _ => none) ⟨0, 0⟩ 5 "j1" "example.com"
    ⟨some "Blog", [⟨"t", "2024-01-01"⟩]⟩ "x.ai down"
    (createJob (fun _ => none) "j1" "example.com" 0)
    ⟨"j1", "example.com", .pending, none, none, 0, none⟩ (by decide) rfl (by decide)

end ContentVelocity
